import Mathlib

/-!
Verification development for the neurlang parallel instruction prediction
pipeline (`train/parallel/train.py`, `train/parallel/model.py`,
`train/parallel/test_inference.py`).

The development shallowly embeds, in Lean:
  * the immediate encoding done by `ParallelDataset.__getitem__`
    (`imm % 256`) and the decoding done by
    `test_inference.decode_instruction` (`imm_bin - 128`);
  * the per-slot target construction of `ParallelDataset.__getitem__`
    (zero-initialised 64-slot label lists, upper clamping via `min`);
  * the sample-retention filter of `ParallelDataset.__init__`;
  * the masked multi-task loss `ParallelInstructionLoss.forward`
    (over exact rationals, taking the per-element cross-entropy tensor
    produced by `nn.CrossEntropyLoss(reduction='none')` as input);
  * a shape-level semantics of `ParallelInstructionModel.forward`;
  * the gradient semantics of `nn.Embedding` with `padding_idx`;
  * the best-checkpoint selection step of the training loop in `main`.

Machine integers are modelled as `Int`/`Nat` (Python integers are
unbounded, so no wraparound is needed); float arithmetic inside the loss
is modelled over `ℚ`, which captures the algebraic masking/weighting
structure exactly.
-/

/-- Number of instruction slots (`NUM_SLOTS = 64` in `model.py`). -/
def NUM_SLOTS : Nat := 64

/-- Number of opcode classes (`NUM_OPCODES = 33`). -/
def NUM_OPCODES : Nat := 33

/-- Number of mode classes (`NUM_MODES = 8`). -/
def NUM_MODES : Nat := 8

/-- Number of register classes (`NUM_REGISTERS = 32`). -/
def NUM_REGISTERS : Nat := 32

/-- Number of immediate quantisation bins (`IMM_BINS = 256`). -/
def IMM_BINS : Nat := 256

/-- Training-time immediate encoding, `train.py` line 123:
`targets['imm_bin'][i] = imm % 256`. Python `%` on a positive modulus
returns a value in `[0, 256)`, exactly `Int.emod`, so `-1 % 256 = 255`. -/
def encodeImm (v : Int) : Int := v % 256

/-- Inference-side immediate decoding, `test_inference.py` line 55:
`imm = imm_bin - 128`. -/
def decodeImm (b : Int) : Int := b - 128

/-- One parsed instruction record from a JSONL training line. Each field
is optional, mirroring `instr.get(key, 0)` which substitutes `0` for a
missing key. -/
structure InstrRecord where
  valid : Option Int
  opcode : Option Int
  mode : Option Int
  rd : Option Int
  rs1 : Option Int
  rs2 : Option Int
  hasImm : Option Int
  immBin : Option Int
deriving DecidableEq, Repr

/-- An instruction record with every field absent (`{}` in the data). -/
def emptyRecord : InstrRecord := ⟨none, none, none, none, none, none, none, none⟩

/-- Value written into target slot `j` for one label field: the loop in
`ParallelDataset.__getitem__` iterates `enumerate(instructions[:num_slots])`
and overwrites the zero-initialised entry, so slot `j` holds the
transformed field of record `j` when `j` indexes into the truncated list
and the initial `0` otherwise. -/
def slotField (f : InstrRecord → Int) (instrs : List InstrRecord) (j : Nat) : Int :=
  match (instrs.take NUM_SLOTS)[j]? with
  | some r => f r
  | none => 0

/-- The eight per-slot label lists built by `ParallelDataset.__getitem__`. -/
structure Targets where
  valid : List Int
  opcode : List Int
  mode : List Int
  rd : List Int
  rs1 : List Int
  rs2 : List Int
  hasImm : List Int
  immBin : List Int
deriving DecidableEq, Repr

/-- Target construction of `ParallelDataset.__getitem__` (lines 95-124):
each list starts as `[0] * num_slots` and slot `i < len(instructions[:64])`
is overwritten with
`valid = instr.get('valid', 0)`,
`opcode = min(instr.get('opcode', 0), 32)`,
`mode = min(instr.get('mode', 0), 7)`,
`rd/rs1/rs2 = min(instr.get(reg, 0), 31)`,
`has_imm = instr.get('has_imm', 0)`,
`imm_bin = instr.get('imm_bin', 0) % 256`. -/
def getTargets (instrs : List InstrRecord) : Targets :=
  ⟨(List.range NUM_SLOTS).map (slotField (fun r => r.valid.getD 0) instrs),
   (List.range NUM_SLOTS).map (slotField (fun r => min (r.opcode.getD 0) 32) instrs),
   (List.range NUM_SLOTS).map (slotField (fun r => min (r.mode.getD 0) 7) instrs),
   (List.range NUM_SLOTS).map (slotField (fun r => min (r.rd.getD 0) 31) instrs),
   (List.range NUM_SLOTS).map (slotField (fun r => min (r.rs1.getD 0) 31) instrs),
   (List.range NUM_SLOTS).map (slotField (fun r => min (r.rs2.getD 0) 31) instrs),
   (List.range NUM_SLOTS).map (slotField (fun r => r.hasImm.getD 0) instrs),
   (List.range NUM_SLOTS).map (slotField (fun r => encodeImm (r.immBin.getD 0)) instrs)⟩

/-- C1: the training-time encoding (`v % 256`, so `-1 ↦ 255`) and the
inference-side decode (`bin ↦ bin - 128`) are not inverses: for every
integer `v`, `decodeImm (encodeImm v) ≠ v`. (The claim says "for most
values"; in fact it fails for all of them, since
`(v % 256) - 128 ≡ v + 128 [ZMOD 256]` and `128 ≢ 0 [ZMOD 256]`.) -/
theorem C1_imm_encode_decode_never_inverse (v : Int) :
    decodeImm (encodeImm v) ≠ v := by
  unfold decodeImm encodeImm
  omega

/-- A slot index at or beyond the record count reads the zero initialiser. -/
lemma slotField_eq_zero (f : InstrRecord → Int) (instrs : List InstrRecord)
    {j : Nat} (h : instrs.length ≤ j) : slotField f instrs j = 0 := by
  have h2 : (instrs.take NUM_SLOTS).length ≤ j := by
    simp only [List.length_take]
    omega
  unfold slotField
  rw [List.getElem?_eq_none h2]

/-- A slot index under both the record count and the slot count reads the
transformed record. -/
lemma slotField_eq_of_lt (f : InstrRecord → Int) (instrs : List InstrRecord)
    {j : Nat} (hj : j < NUM_SLOTS) (hlen : j < instrs.length) :
    slotField f instrs j = f (instrs.get ⟨j, hlen⟩) := by
  unfold slotField
  rw [List.getElem?_take]
  simp [hj, List.getElem?_eq_getElem hlen]

/-- Truncation beyond `NUM_SLOTS` does not change a slot field. -/
lemma slotField_take (f : InstrRecord → Int) (instrs : List InstrRecord) :
    slotField f (instrs.take NUM_SLOTS) = slotField f instrs := by
  funext j
  unfold slotField
  rw [List.take_take]
  simp

/-- Reading slot `j < NUM_SLOTS` out of a built label list. -/
lemma targets_getElem (f : InstrRecord → Int) (instrs : List InstrRecord)
    {j : Nat} (hj : j < NUM_SLOTS) :
    ((List.range NUM_SLOTS).map (slotField f instrs))[j]? = some (slotField f instrs j) := by
  rw [List.getElem?_map]
  simp [List.getElem?_range, hj]

/-- C6: every sample's eight target label lists have length exactly 64;
every slot at an index at or beyond the number of provided records (and
inside the 64 slots that exist) has `valid = 0` and all other fields `0`;
and instruction lists longer than 64 are truncated to the first 64
(the targets of `instrs` and of `instrs.take 64` coincide). -/
theorem C6_targets_length_padding_truncation (instrs : List InstrRecord) :
    ((getTargets instrs).valid.length = NUM_SLOTS ∧
     (getTargets instrs).opcode.length = NUM_SLOTS ∧
     (getTargets instrs).mode.length = NUM_SLOTS ∧
     (getTargets instrs).rd.length = NUM_SLOTS ∧
     (getTargets instrs).rs1.length = NUM_SLOTS ∧
     (getTargets instrs).rs2.length = NUM_SLOTS ∧
     (getTargets instrs).hasImm.length = NUM_SLOTS ∧
     (getTargets instrs).immBin.length = NUM_SLOTS) ∧
    (∀ j, instrs.length ≤ j → j < NUM_SLOTS →
      (getTargets instrs).valid[j]? = some 0 ∧
      (getTargets instrs).opcode[j]? = some 0 ∧
      (getTargets instrs).mode[j]? = some 0 ∧
      (getTargets instrs).rd[j]? = some 0 ∧
      (getTargets instrs).rs1[j]? = some 0 ∧
      (getTargets instrs).rs2[j]? = some 0 ∧
      (getTargets instrs).hasImm[j]? = some 0 ∧
      (getTargets instrs).immBin[j]? = some 0) ∧
    getTargets (instrs.take NUM_SLOTS) = getTargets instrs := by
  refine ⟨by simp [getTargets], ?_, by simp [getTargets, slotField_take]⟩
  intro j h1 h2
  simp only [getTargets]
  refine ⟨?_, ?_, ?_, ?_, ?_, ?_, ?_, ?_⟩ <;>
    rw [targets_getElem _ _ h2, slotField_eq_zero _ _ h1]

/-- Closed instantiation of `C6_targets_length_padding_truncation`: one
record fills slot 0, slot 3 of the opcode list is the padding value 0. -/
theorem C6_witness :
    [emptyRecord].length ≤ 3 ∧ (3 : Nat) < NUM_SLOTS ∧
    (getTargets [emptyRecord]).opcode[3]? = some 0 :=
  ⟨by decide, by decide,
   ((C6_targets_length_padding_truncation [emptyRecord]).2.1 3 (by decide) (by decide)).2.1⟩

/-- A record whose `opcode` field is the out-of-range value `-1`. -/
def negOpcodeRecord : InstrRecord :=
  ⟨some 1, some (-1), none, none, none, none, none, none⟩

/-- A clamped slot value never exceeds the clamp bound. -/
lemma slotField_min_le (g : InstrRecord → Int) (b : Int) (hb : 0 ≤ b)
    (instrs : List InstrRecord) (j : Nat) :
    slotField (fun r => min (g r) b) instrs j ≤ b := by
  unfold slotField
  cases h : (instrs.take NUM_SLOTS)[j]? with
  | none => simpa using hb
  | some r => simp

/-- C2 counterexample: the loader uses `min(value, bound)` only, so the
below-range opcode `-1` is passed through out of range instead of being
clamped into `[0, 32]`: slot 0 of the opcode targets is `-1`. -/
theorem C2_counterexample_negative_opcode_not_clamped :
    (getTargets [negOpcodeRecord]).opcode[0]? = some (-1) ∧ (-1 : Int) < 0 := by
  constructor
  · decide
  · decide

/-- A record whose `opcode` field is the above-range value `100`. -/
def bigOpcodeRecord : InstrRecord :=
  ⟨some 1, some 100, none, none, none, none, none, none⟩

/-- C2 (amended): every loaded `opcode`/`mode`/`rd`/`rs1`/`rs2` label
ABOVE the valid class range is clamped down to exactly the range maximum
(32, 7, 31, 31, 31), while values at or below the maximum — including
negative, below-range values — are passed through unchanged; only upper
clamping is applied, and every produced label is at most its maximum. -/
theorem C2_amended_upper_clamp_only (instrs : List InstrRecord) :
    (∀ x ∈ (getTargets instrs).opcode, x ≤ 32) ∧
    (∀ x ∈ (getTargets instrs).mode, x ≤ 7) ∧
    (∀ x ∈ (getTargets instrs).rd, x ≤ 31) ∧
    (∀ x ∈ (getTargets instrs).rs1, x ≤ 31) ∧
    (∀ x ∈ (getTargets instrs).rs2, x ≤ 31) ∧
    (∀ j, j < NUM_SLOTS → ∀ hlen : j < instrs.length,
      ((instrs.get ⟨j, hlen⟩).opcode.getD 0 ≤ 32 →
        (getTargets instrs).opcode[j]? = some ((instrs.get ⟨j, hlen⟩).opcode.getD 0)) ∧
      (32 < (instrs.get ⟨j, hlen⟩).opcode.getD 0 →
        (getTargets instrs).opcode[j]? = some 32) ∧
      ((instrs.get ⟨j, hlen⟩).mode.getD 0 ≤ 7 →
        (getTargets instrs).mode[j]? = some ((instrs.get ⟨j, hlen⟩).mode.getD 0)) ∧
      (7 < (instrs.get ⟨j, hlen⟩).mode.getD 0 →
        (getTargets instrs).mode[j]? = some 7) ∧
      ((instrs.get ⟨j, hlen⟩).rd.getD 0 ≤ 31 →
        (getTargets instrs).rd[j]? = some ((instrs.get ⟨j, hlen⟩).rd.getD 0)) ∧
      (31 < (instrs.get ⟨j, hlen⟩).rd.getD 0 →
        (getTargets instrs).rd[j]? = some 31) ∧
      ((instrs.get ⟨j, hlen⟩).rs1.getD 0 ≤ 31 →
        (getTargets instrs).rs1[j]? = some ((instrs.get ⟨j, hlen⟩).rs1.getD 0)) ∧
      (31 < (instrs.get ⟨j, hlen⟩).rs1.getD 0 →
        (getTargets instrs).rs1[j]? = some 31) ∧
      ((instrs.get ⟨j, hlen⟩).rs2.getD 0 ≤ 31 →
        (getTargets instrs).rs2[j]? = some ((instrs.get ⟨j, hlen⟩).rs2.getD 0)) ∧
      (31 < (instrs.get ⟨j, hlen⟩).rs2.getD 0 →
        (getTargets instrs).rs2[j]? = some 31)) := by
  have memBound : ∀ (g : InstrRecord → Int) (b : Int), 0 ≤ b →
      ∀ x ∈ (List.range NUM_SLOTS).map (slotField (fun r => min (g r) b) instrs), x ≤ b := by
    intro g b hb x hx
    obtain ⟨j, _, rfl⟩ := List.mem_map.mp hx
    exact slotField_min_le g b hb instrs j
  have passThrough : ∀ (g : InstrRecord → Int) (b : Int),
      ∀ j, ∀ hj : j < NUM_SLOTS, ∀ hlen : j < instrs.length,
      g (instrs.get ⟨j, hlen⟩) ≤ b →
      ((List.range NUM_SLOTS).map (slotField (fun r => min (g r) b) instrs))[j]? =
        some (g (instrs.get ⟨j, hlen⟩)) := by
    intro g b j hj hlen hle
    rw [targets_getElem _ _ hj, slotField_eq_of_lt _ _ hj hlen, min_eq_left hle]
  have clampAbove : ∀ (g : InstrRecord → Int) (b : Int),
      ∀ j, ∀ hj : j < NUM_SLOTS, ∀ hlen : j < instrs.length,
      b < g (instrs.get ⟨j, hlen⟩) →
      ((List.range NUM_SLOTS).map (slotField (fun r => min (g r) b) instrs))[j]? =
        some b := by
    intro g b j hj hlen hlt
    rw [targets_getElem _ _ hj, slotField_eq_of_lt _ _ hj hlen, min_eq_right (le_of_lt hlt)]
  simp only [getTargets]
  refine ⟨memBound _ 32 (by decide), memBound _ 7 (by decide), memBound _ 31 (by decide),
    memBound _ 31 (by decide), memBound _ 31 (by decide), ?_⟩
  intro j hj hlen
  exact ⟨passThrough (fun r => r.opcode.getD 0) 32 j hj hlen,
    clampAbove (fun r => r.opcode.getD 0) 32 j hj hlen,
    passThrough (fun r => r.mode.getD 0) 7 j hj hlen,
    clampAbove (fun r => r.mode.getD 0) 7 j hj hlen,
    passThrough (fun r => r.rd.getD 0) 31 j hj hlen,
    clampAbove (fun r => r.rd.getD 0) 31 j hj hlen,
    passThrough (fun r => r.rs1.getD 0) 31 j hj hlen,
    clampAbove (fun r => r.rs1.getD 0) 31 j hj hlen,
    passThrough (fun r => r.rs2.getD 0) 31 j hj hlen,
    clampAbove (fun r => r.rs2.getD 0) 31 j hj hlen⟩

/-- Closed instantiation of `C2_amended_upper_clamp_only`: the record with
opcode `-1` passes the negative value through unchanged at slot 0, and
the record with opcode `100` is clamped to exactly the maximum 32. -/
theorem C2_witness :
    ((-1 : Int) ≤ 32) ∧ (getTargets [negOpcodeRecord]).opcode[0]? = some (-1) ∧
    ((32 : Int) < 100) ∧ (getTargets [bigOpcodeRecord]).opcode[0]? = some 32 :=
  ⟨by decide,
   (((C2_amended_upper_clamp_only [negOpcodeRecord]).2.2.2.2.2 0 (by decide) (by decide)).1
     (by decide)),
   by decide,
   (((C2_amended_upper_clamp_only [bigOpcodeRecord]).2.2.2.2.2 0 (by decide) (by decide)).2.1
     (by decide))⟩

/-- The eight prediction heads, in the order of the loop in
`ParallelInstructionLoss.forward`:
`['valid','opcode','mode','rd','rs1','rs2','has_imm','imm_bin']`. -/
inductive Head where
  | valid
  | opcode
  | mode
  | rd
  | rs1
  | rs2
  | hasImm
  | immBin
deriving DecidableEq, Repr

/-- Iteration order of the loss loop over the heads. -/
def headOrder : List Head :=
  [Head.valid, Head.opcode, Head.mode, Head.rd, Head.rs1, Head.rs2, Head.hasImm, Head.immBin]

/-- Default per-head loss weights from `ParallelInstructionLoss.__init__`:
`valid_weight = 1.0`, `opcode_weight = 2.0`, `mode_weight = 1.0`,
`register_weight = 1.0` (for rd, rs1, rs2), `imm_weight = 0.5`
(for has_imm and imm_bin). -/
def headWeight : Head → ℚ
  | Head.valid => 1
  | Head.opcode => 2
  | Head.mode => 1
  | Head.rd => 1
  | Head.rs1 => 1
  | Head.rs2 => 1
  | Head.hasImm => 1 / 2
  | Head.immBin => 1 / 2

/-- The epsilon `1e-8` added to the masked-average divisor. -/
def EPS : ℚ := 1 / 100000000

/-- Sum of all entries of a (batch, slots) tensor, `t.sum()`. -/
def tensorSum (t : List (List ℚ)) : ℚ := (t.map List.sum).sum

/-- Number of entries of a (batch, slots) tensor, `t.numel()`. -/
def tensorNumel (t : List (List ℚ)) : Nat := (t.map List.length).sum

/-- Unmasked mean over all entries, `t.mean()` (sum divided by numel). -/
def tensorMean (t : List (List ℚ)) : ℚ := tensorSum t / (tensorNumel t : ℚ)

/-- Elementwise product of two (batch, slots) tensors, `loss * valid_mask`. -/
def hadamard (a b : List (List ℚ)) : List (List ℚ) :=
  List.zipWith (List.zipWith (fun x y => x * y)) a b

/-- Number of slots the mask marks valid (entries equal to 1). -/
def countValid (mask : List (List ℚ)) : Nat :=
  (mask.map (fun row => (row.filter (fun x => x = 1)).length)).sum

/-- Per-head reduction of `ParallelInstructionLoss.forward` (lines 327-333):
the raw per-element cross-entropy tensor `ce` (what
`self.ce_loss(logit, target).view(targets[name].shape)` produces) is,
for the `valid` head, averaged unmasked over all entries; for every other
head it is multiplied by the valid mask, summed, and divided by
`valid_mask.sum() + 1e-8`. -/
def headLoss (h : Head) (ce : List (List ℚ)) (mask : List (List ℚ)) : ℚ :=
  if h = Head.valid then tensorMean ce
  else tensorSum (hadamard ce mask) / (tensorSum mask + EPS)

/-- Full loss forward pass (lines 312-339): iterates the heads in order,
accumulating `total_loss += weights[name] * loss` and recording the
unweighted per-head value in the diagnostic mapping `losses`. Returns
`(total_loss, losses)`. -/
def lossForward (ce : Head → List (List ℚ)) (mask : List (List ℚ)) : ℚ × (Head → ℚ) :=
  ((headOrder.map (fun h => headWeight h * headLoss h (ce h) mask)).sum,
   fun h => headLoss h (ce h) mask)

/-- A 0/1-valued row sums to the number of its 1 entries. -/
lemma sum_eq_ones_count (row : List ℚ) (h : ∀ x ∈ row, x = 0 ∨ x = 1) :
    row.sum = ((row.filter (fun x => x = 1)).length : ℚ) := by
  induction row with
  | nil => simp
  | cons a t ih =>
    have ha := h a (List.mem_cons_self a t)
    have ht : ∀ x ∈ t, x = 0 ∨ x = 1 := fun x hx => h x (List.mem_cons_of_mem a hx)
    rcases ha with h0 | h1
    · subst h0
      simp [List.filter_cons, ih ht]
    · subst h1
      simp [List.filter_cons, ih ht]
      ring

/-- A 0/1-valued mask tensor sums to its count of valid slots. -/
lemma tensorSum_eq_countValid (mask : List (List ℚ))
    (h : ∀ row ∈ mask, ∀ x ∈ row, x = 0 ∨ x = 1) :
    tensorSum mask = (countValid mask : ℚ) := by
  unfold tensorSum countValid
  induction mask with
  | nil => simp
  | cons row t ih =>
    have hrow := h row (List.mem_cons_self row t)
    have ht : ∀ r ∈ t, ∀ x ∈ r, x = 0 ∨ x = 1 := fun r hr => h r (List.mem_cons_of_mem row hr)
    simp [sum_eq_ones_count row hrow, ih ht]

/-- Multiplying a row by an all-zero mask row kills its sum. -/
lemma zipWith_mul_zero_sum (a b : List ℚ) (h : ∀ y ∈ b, y = 0) :
    (List.zipWith (fun x y => x * y) a b).sum = 0 := by
  induction a generalizing b with
  | nil => simp
  | cons x t ih =>
    cases b with
    | nil => simp
    | cons y s =>
      have hy := h y (List.mem_cons_self y s)
      have hs : ∀ z ∈ s, z = 0 := fun z hz => h z (List.mem_cons_of_mem y hz)
      subst hy
      simp [ih s hs]

/-- Multiplying by an all-zero mask tensor kills the total sum. -/
lemma hadamard_zero_sum (ce mask : List (List ℚ)) (h : ∀ row ∈ mask, ∀ x ∈ row, x = 0) :
    tensorSum (hadamard ce mask) = 0 := by
  unfold tensorSum hadamard
  induction ce generalizing mask with
  | nil => simp
  | cons row t ih =>
    cases mask with
    | nil => simp
    | cons mrow ms =>
      have hm := h mrow (List.mem_cons_self mrow ms)
      have hs : ∀ r ∈ ms, ∀ x ∈ r, x = 0 := fun r hr => h r (List.mem_cons_of_mem mrow hr)
      simp [zipWith_mul_zero_sum row mrow hm, ih ms hs]

/-- C3: for every non-`valid` head, the reduced loss is the sum of
per-slot cross-entropies multiplied by the validity mask, divided by
(count of valid slots + epsilon); that divisor is strictly positive even
for an all-zero mask, so the masked per-head loss is always well-defined,
and on an all-padding batch it evaluates to 0 rather than dividing by
zero. -/
theorem C3_masked_loss_divisor_safe (h : Head) (ce mask : List (List ℚ))
    (hne : h ≠ Head.valid)
    (h01 : ∀ row ∈ mask, ∀ x ∈ row, x = 0 ∨ x = 1) :
    headLoss h ce mask = tensorSum (hadamard ce mask) / ((countValid mask : ℚ) + EPS) ∧
    (0 : ℚ) < (countValid mask : ℚ) + EPS ∧
    ((∀ row ∈ mask, ∀ x ∈ row, x = 0) → headLoss h ce mask = 0) := by
  have hpos : (0 : ℚ) < (countValid mask : ℚ) + EPS := by
    have h1 : (0 : ℚ) ≤ (countValid mask : ℚ) := Nat.cast_nonneg _
    have h2 : (0 : ℚ) < EPS := by norm_num [EPS]
    linarith
  refine ⟨?_, hpos, ?_⟩
  · rw [headLoss, if_neg hne, tensorSum_eq_countValid mask h01]
  · intro hz
    rw [headLoss, if_neg hne, hadamard_zero_sum ce mask hz, zero_div]

/-- Closed instantiation of `C3_masked_loss_divisor_safe` on a concrete
batch with an all-zero (all-padding) mask. -/
theorem C3_witness :
    headLoss Head.opcode [[2, 4]] [[0, 0]] =
      tensorSum (hadamard [[2, 4]] [[0, 0]]) / ((countValid [[0, 0]] : ℚ) + EPS) ∧
    (0 : ℚ) < (countValid [[0, 0]] : ℚ) + EPS ∧
    ((∀ row ∈ [[(0 : ℚ), 0]], ∀ x ∈ row, x = 0) → headLoss Head.opcode [[2, 4]] [[0, 0]] = 0) :=
  C3_masked_loss_divisor_safe Head.opcode [[2, 4]] [[0, 0]] (by decide) (by decide)

/-- C4: the total scalar loss returned by `ParallelInstructionLoss.forward`
equals the weighted sum of the eight unweighted per-head losses reported
in its diagnostic mapping, with weights 1 (valid), 2 (opcode), 1 (mode),
1 (rd), 1 (rs1), 1 (rs2), 1/2 (has_imm), 1/2 (imm_bin). -/
theorem C4_total_loss_is_weighted_sum (ce : Head → List (List ℚ)) (mask : List (List ℚ)) :
    (lossForward ce mask).1 =
      1 * (lossForward ce mask).2 Head.valid +
      2 * (lossForward ce mask).2 Head.opcode +
      1 * (lossForward ce mask).2 Head.mode +
      1 * (lossForward ce mask).2 Head.rd +
      1 * (lossForward ce mask).2 Head.rs1 +
      1 * (lossForward ce mask).2 Head.rs2 +
      (1 / 2) * (lossForward ce mask).2 Head.hasImm +
      (1 / 2) * (lossForward ce mask).2 Head.immBin := by
  simp [lossForward, headOrder, headWeight]
  ring

/-- A batch of `B` rows of length `NUM_SLOTS` has `NUM_SLOTS * B` entries. -/
lemma tensorNumel_of_rows (ce : List (List ℚ))
    (hrow : ∀ row ∈ ce, row.length = NUM_SLOTS) :
    tensorNumel ce = NUM_SLOTS * ce.length := by
  unfold tensorNumel
  induction ce with
  | nil => simp
  | cons row t ih =>
    have h1 := hrow row (List.mem_cons_self row t)
    have ht : ∀ r ∈ t, r.length = NUM_SLOTS := fun r hr => hrow r (List.mem_cons_of_mem row hr)
    simp [h1, ih ht]
    ring

/-- C5: the `valid` head's loss is the unmasked mean of per-slot
cross-entropy over all `64 * B` slots of the batch — the mask plays no
role — and its divisor `64 * B` is nonzero for any nonempty batch, so it
is well-defined both for an all-valid and for an all-padding sample. -/
theorem C5_valid_head_unmasked_mean (ce mask : List (List ℚ)) (B : Nat)
    (hB : ce.length = B) (hrow : ∀ row ∈ ce, row.length = NUM_SLOTS) (hpos : 1 ≤ B) :
    headLoss Head.valid ce mask = tensorSum ce / ((NUM_SLOTS * B : Nat) : ℚ) ∧
    ((NUM_SLOTS * B : Nat) : ℚ) ≠ 0 ∧
    (∀ mask2, headLoss Head.valid ce mask2 = headLoss Head.valid ce mask) := by
  refine ⟨?_, ?_, fun mask2 => rfl⟩
  · rw [headLoss, if_pos rfl, tensorMean, tensorNumel_of_rows ce hrow, hB]
  · have : 0 < NUM_SLOTS * B := by
      have : 0 < NUM_SLOTS := by norm_num [NUM_SLOTS]
      exact Nat.mul_pos this hpos
    exact_mod_cast Nat.pos_iff_ne_zero.mp this

/-- Closed instantiation of `C5_valid_head_unmasked_mean` on a one-sample
batch whose mask is all zero (an all-padding sample). -/
theorem C5_witness :
    headLoss Head.valid [List.replicate NUM_SLOTS (1 : ℚ)] [List.replicate NUM_SLOTS (0 : ℚ)] =
      tensorSum [List.replicate NUM_SLOTS (1 : ℚ)] / ((NUM_SLOTS * 1 : Nat) : ℚ) ∧
    ((NUM_SLOTS * 1 : Nat) : ℚ) ≠ 0 ∧
    (∀ mask2, headLoss Head.valid [List.replicate NUM_SLOTS (1 : ℚ)] mask2 =
      headLoss Head.valid [List.replicate NUM_SLOTS (1 : ℚ)]
        [List.replicate NUM_SLOTS (0 : ℚ)]) :=
  C5_valid_head_unmasked_mean [List.replicate NUM_SLOTS (1 : ℚ)]
    [List.replicate NUM_SLOTS (0 : ℚ)] 1 (by decide) (by decide) (by decide)

/-- A rank-3 tensor shape `(d0, d1, d2)`. -/
structure Shape3 where
  d0 : Nat
  d1 : Nat
  d2 : Nat
deriving DecidableEq, Repr

/-- Construction-time configuration of `ParallelInstructionModel.__init__`:
`vocab_size = 261`, `embed_dim = 128`, `hidden_dim = 512`,
`num_slots = NUM_SLOTS`, `max_seq_len` (512 by default; the training
script passes `args.max_seq_len`). -/
structure ModelCfg where
  vocabSize : Nat
  embedDim : Nat
  hiddenDim : Nat
  numSlots : Nat
  maxSeqLen : Nat
deriving DecidableEq, Repr

/-- The full model configuration with a given `max_seq_len`. -/
def fullModelCfg (maxSeqLen : Nat) : ModelCfg := ⟨261, 128, 512, NUM_SLOTS, maxSeqLen⟩

/-- `self.embedding(x)`: token ids (B, L) become (B, L, embed_dim). -/
def embeddingShape (cfg : ModelCfg) (B L : Nat) : Shape3 := ⟨B, L, cfg.embedDim⟩

/-- `PositionalEncoding.forward`: `x + self.pe[:, :x.size(1)]`. The `pe`
buffer holds `max_seq_len` positions, so the slice has length
`min L max_seq_len`; the broadcast add succeeds only if that length
equals `L` or is 1, and then preserves the input shape. In particular an
input longer than `max_seq_len` raises a size-mismatch error. -/
def posEncodingShape (cfg : ModelCfg) (s : Shape3) : Option Shape3 :=
  if min s.d1 cfg.maxSeqLen = s.d1 ∨ min s.d1 cfg.maxSeqLen = 1 then some s else none

/-- `permute(0, 2, 1)`: swap the last two dimensions. -/
def permuteShape (s : Shape3) : Shape3 := ⟨s.d0, s.d2, s.d1⟩

/-- `nn.Conv1d(cIn, cOut, kernel_size=3, padding=1)` on (B, C, L):
requires `C = cIn` and the padded length `L + 2` to be at least the
kernel size 3 (torch raises when the padded input is shorter than the
kernel, i.e. for `L = 0`); the output is same-length
(`L + 2*padding - kernel + 1 = L`). -/
def conv1dShape (cIn cOut : Nat) (s : Shape3) : Option Shape3 :=
  if s.d1 = cIn ∧ 3 ≤ s.d2 + 2 then some ⟨s.d0, cOut, s.d2⟩ else none

/-- The CNN encoder stack `Conv1d(embed_dim, 256) → GELU → BatchNorm1d →
Conv1d(256, 512) → GELU → BatchNorm1d → Conv1d(512, hidden_dim) → GELU`
(GELU and BatchNorm1d preserve shapes). -/
def encoderShape (cfg : ModelCfg) (s : Shape3) : Option Shape3 :=
  (conv1dShape cfg.embedDim 256 s).bind (fun s1 =>
    (conv1dShape 256 512 s1).bind (fun s2 =>
      conv1dShape 512 cfg.hiddenDim s2))

/-- `MultiHeadCrossAttention.forward`: queries (B, S, H) attend to
keys/values (B, L, H); all projections require width H and a shared batch
dimension, and the output keeps the query shape. -/
def crossAttentionShape (cfg : ModelCfg) (q kv : Shape3) : Option Shape3 :=
  if q.d2 = cfg.hiddenDim ∧ kv.d2 = cfg.hiddenDim ∧ q.d0 = kv.d0 then some q else none

/-- `nn.Linear(inF, outF)` applied position-wise to (B, S, inF). -/
def linearShape (inF outF : Nat) (s : Shape3) : Option Shape3 :=
  if s.d2 = inF then some ⟨s.d0, s.d1, outF⟩ else none

/-- Class count of each prediction head (`model.py` lines 181-189):
valid 2, opcode `NUM_OPCODES`, mode `NUM_MODES`, rd/rs1/rs2
`NUM_REGISTERS`, has_imm 2, imm_bin `IMM_BINS`. -/
def headClasses : Head → Nat
  | Head.valid => 2
  | Head.opcode => NUM_OPCODES
  | Head.mode => NUM_MODES
  | Head.rd => NUM_REGISTERS
  | Head.rs1 => NUM_REGISTERS
  | Head.rs2 => NUM_REGISTERS
  | Head.hasImm => 2
  | Head.immBin => IMM_BINS

/-- The eight parallel prediction heads applied to the slot tensor,
returned keyed in the order of the dict literal in `forward`. -/
def headsShapes (cfg : ModelCfg) (s : Shape3) : Option (List (Head × Shape3)) :=
  (linearShape cfg.hiddenDim 2 s).bind (fun sv =>
  (linearShape cfg.hiddenDim NUM_OPCODES s).bind (fun so =>
  (linearShape cfg.hiddenDim NUM_MODES s).bind (fun sm =>
  (linearShape cfg.hiddenDim NUM_REGISTERS s).bind (fun sd =>
  (linearShape cfg.hiddenDim NUM_REGISTERS s).bind (fun sa =>
  (linearShape cfg.hiddenDim NUM_REGISTERS s).bind (fun sb =>
  (linearShape cfg.hiddenDim 2 s).bind (fun sh =>
  (linearShape cfg.hiddenDim IMM_BINS s).bind (fun si =>
  some [(Head.valid, sv), (Head.opcode, so), (Head.mode, sm), (Head.rd, sd),
        (Head.rs1, sa), (Head.rs2, sb), (Head.hasImm, sh), (Head.immBin, si)]))))))))

/-- Shape-level semantics of `ParallelInstructionModel.forward`:
embed, add positional encoding, permute, run the CNN encoder, permute
back, broadcast the learned slot queries to (B, num_slots, hidden), run
two cross-attention layers (residual/norm preserve shapes), the
feed-forward block (Linear H→4H, GELU, Dropout, Linear 4H→H, residual,
norm), then the eight heads. -/
def forwardShapes (cfg : ModelCfg) (B L : Nat) : Option (List (Head × Shape3)) :=
  (posEncodingShape cfg (embeddingShape cfg B L)).bind (fun emb =>
    (encoderShape cfg (permuteShape emb)).bind (fun enc =>
      (crossAttentionShape cfg ⟨B, cfg.numSlots, cfg.hiddenDim⟩ (permuteShape enc)).bind
        (fun a1 =>
        (crossAttentionShape cfg a1 (permuteShape enc)).bind (fun a2 =>
          (linearShape cfg.hiddenDim (cfg.hiddenDim * 4) a2).bind (fun f1 =>
            (linearShape (cfg.hiddenDim * 4) cfg.hiddenDim f1).bind (fun slotsOut =>
              headsShapes cfg slotsOut))))))

/-- C7 counterexample: the claim quantifies over every input shape (B, L),
but for L = 513 with the default `max_seq_len = 512` the positional
encoding's broadcast add fails (pe slice has 512 positions against 513),
and for L = 0 the first encoder convolution fails (padded length 2 is
below the kernel size 3), so `forward` raises at both shapes instead of
returning the eight tensors. -/
theorem C7_counterexample_seq_len_out_of_range :
    forwardShapes (fullModelCfg 512) 1 513 = none ∧
    forwardShapes (fullModelCfg 512) 1 0 = none := by
  refine ⟨by decide, by decide⟩

/-- C7 (amended): for every batch size B and sequence length L with
1 ≤ L ≤ max_seq_len, `forward` returns exactly the eight tensors keyed
valid, opcode, mode, rd, rs1, rs2, has_imm, imm_bin with shapes
(B,64,2), (B,64,33), (B,64,8), (B,64,32), (B,64,32), (B,64,32), (B,64,2),
(B,64,256). -/
theorem C7_amended_forward_shapes (B L maxSeqLen : Nat)
    (hL1 : 1 ≤ L) (hL : L ≤ maxSeqLen) :
    forwardShapes (fullModelCfg maxSeqLen) B L =
      some [(Head.valid, ⟨B, 64, 2⟩), (Head.opcode, ⟨B, 64, 33⟩),
            (Head.mode, ⟨B, 64, 8⟩), (Head.rd, ⟨B, 64, 32⟩),
            (Head.rs1, ⟨B, 64, 32⟩), (Head.rs2, ⟨B, 64, 32⟩),
            (Head.hasImm, ⟨B, 64, 2⟩), (Head.immBin, ⟨B, 64, 256⟩)] := by
  have hker : 3 ≤ L + 2 := by omega
  simp only [forwardShapes, fullModelCfg, posEncodingShape, embeddingShape, permuteShape,
    encoderShape, conv1dShape, crossAttentionShape, linearShape, headsShapes,
    min_eq_left hL, hker, NUM_SLOTS, NUM_OPCODES, NUM_MODES, NUM_REGISTERS, IMM_BINS,
    Option.some_bind, if_pos, eq_self_iff_true, and_self, true_or, if_true, or_true,
    and_true, Option.bind_eq_bind]

/-- Closed instantiation of `C7_amended_forward_shapes` at B = 2, L = 256,
max_seq_len = 256 (the training default). -/
theorem C7_witness :
    (1 : Nat) ≤ 256 ∧ (256 : Nat) ≤ 256 ∧
    forwardShapes (fullModelCfg 256) 2 256 =
      some [(Head.valid, ⟨2, 64, 2⟩), (Head.opcode, ⟨2, 64, 33⟩),
            (Head.mode, ⟨2, 64, 8⟩), (Head.rd, ⟨2, 64, 32⟩),
            (Head.rs1, ⟨2, 64, 32⟩), (Head.rs2, ⟨2, 64, 32⟩),
            (Head.hasImm, ⟨2, 64, 2⟩), (Head.immBin, ⟨2, 64, 256⟩)] :=
  ⟨by decide, by decide, C7_amended_forward_shapes 2 256 256 (by decide) (by decide)⟩

/-- Initialisation of `nn.Embedding(vocab_size, embed_dim, padding_idx=256)`
(`model.py` lines 144 and 361) following `torch.nn.Embedding`: every row
is drawn from a normal distribution (abstracted here as `randRow`), after
which the row at `padding_idx` is overwritten with zeros
(`reset_parameters` calls `_fill_padding_idx_with_zero`). -/
def embeddingInit (vocab dim padIdx : Nat) (randRow : Nat → List ℚ) : List (List ℚ) :=
  (List.range vocab).map (fun i => if i = padIdx then List.replicate dim 0 else randRow i)

/-- Weight gradient of one embedding row under
`torch.nn.functional.embedding` backward with `padding_idx` set: an
ordinary row accumulates the upstream gradient of every position whose
token id equals that row, while the `padding_idx` row's gradient is
fixed to zero — torch documents that the vector at `padding_idx` is not
updated during training. -/
def embeddingGradRow (dim padIdx : Nat) (tokens : List Nat) (gradOut : List (List ℚ))
    (row : Nat) : List ℚ :=
  if row = padIdx then List.replicate dim 0
  else (List.zip tokens gradOut).foldl
    (fun acc tg => if tg.1 = row then List.zipWith (fun a b => a + b) acc tg.2 else acc)
    (List.replicate dim 0)

/-- C8 counterexample: the padding row does NOT participate in gradient
updates as any other row. With one occurrence of token 256 (the padding
id) and upstream gradient `[1]`, row 256 receives gradient `[0]`,
whereas an ordinary row (5) with the same occurrence pattern receives
`[1]`. -/
theorem C8_counterexample_padding_row_grad_frozen :
    embeddingGradRow 1 256 [256] [[1]] 256 = [0] ∧
    embeddingGradRow 1 256 [5] [[1]] 5 = [1] ∧
    [(0 : ℚ)] ≠ [(1 : ℚ)] := by
  refine ⟨by norm_num [embeddingGradRow], by norm_num [embeddingGradRow], by norm_num⟩

/-- C8 (amended): the embedding table reserves a dedicated
zero-initialized row for the padding id, but that row is excluded from
gradient updates — its gradient is identically zero for every input,
unlike an ordinary row's. -/
theorem C8_amended_padding_row_zero_init_and_frozen (vocab dim padIdx : Nat)
    (randRow : Nat → List ℚ) (h : padIdx < vocab) :
    (embeddingInit vocab dim padIdx randRow)[padIdx]? = some (List.replicate dim 0) ∧
    (∀ tokens gradOut,
      embeddingGradRow dim padIdx tokens gradOut padIdx = List.replicate dim 0) := by
  constructor
  · rw [embeddingInit, List.getElem?_map]
    simp [List.getElem?_range, h]
  · intro tokens gradOut
    rw [embeddingGradRow, if_pos rfl]

/-- Closed instantiation of `C8_amended_padding_row_zero_init_and_frozen`
at the model's actual parameters (vocab 261, padding id 256). -/
theorem C8_witness :
    (256 : Nat) < 261 ∧
    (embeddingInit 261 2 256 (fun i => [(i : ℚ), 1]))[256]? = some (List.replicate 2 0) ∧
    embeddingGradRow 2 256 [256, 3] [[1, 1], [1, 1]] 256 = List.replicate 2 0 :=
  ⟨by decide,
   (C8_amended_padding_row_zero_init_and_frozen 261 2 256 (fun i => [(i : ℚ), 1])
     (by decide)).1,
   (C8_amended_padding_row_zero_init_and_frozen 261 2 256 (fun i => [(i : ℚ), 1])
     (by decide)).2 [256, 3] [[1, 1], [1, 1]]⟩

/-- State of the best-model selection in `main` (`train.py` lines
367-405): the best validation opcode accuracy (initialised 0.0), the
best validation loss (initialised to float infinity in the source, but
only ever written, never compared, so it is modelled as `none` until
first written), the early-stopping patience counter, the epoch index of
the saved best checkpoint (`none` until a save happens), and whether
early stopping has fired. -/
structure TrainState where
  bestOpcodeAcc : ℚ
  bestValLoss : Option ℚ
  patienceCounter : Nat
  bestCheckpoint : Option Nat
  stopped : Bool
deriving DecidableEq, Repr

/-- Selection state before the first epoch. -/
def initTrainState : TrainState := ⟨0, none, 0, none, false⟩

/-- One epoch of the selection logic (`if val_losses['opcode_acc'] >
best_opcode_acc:` ... `else:` patience increment and early stop): the
saved checkpoint is overwritten with this epoch exactly when the epoch's
validation opcode accuracy strictly exceeds the best so far; otherwise —
including an exact tie — nothing is saved, the patience counter
increments, and training stops once it reaches `patience`. -/
def epochStep (patience : Nat) (e : Nat) (acc total : ℚ) (s : TrainState) : TrainState :=
  if s.stopped then s
  else if s.bestOpcodeAcc < acc then
    ⟨acc, some total, 0, some e, false⟩
  else
    ⟨s.bestOpcodeAcc, s.bestValLoss, s.patienceCounter + 1, s.bestCheckpoint,
      decide (patience ≤ s.patienceCounter + 1)⟩

/-- The training loop folds `epochStep` over the per-epoch validation
metrics `(opcode accuracy, total loss)` in epoch order. -/
def runTraining (patience : Nat) (metrics : List (ℚ × ℚ)) : TrainState :=
  metrics.enum.foldl (fun s ie => epochStep patience ie.1 ie.2.1 ie.2.2 s) initTrainState

/-- C9: in any epoch of a still-running training loop, the saved best
checkpoint is replaced if and only if the epoch's validation opcode
accuracy strictly exceeds the best opcode accuracy seen so far;
an epoch that merely ties (or is worse) leaves both the checkpoint and
the recorded best accuracy unchanged. Selection is by accuracy only —
the validation loss takes no part in the decision. -/
theorem C9_best_checkpoint_strict_improvement (patience e : Nat) (acc total : ℚ)
    (s : TrainState) (hrun : s.stopped = false) :
    (acc ≤ s.bestOpcodeAcc →
      (epochStep patience e acc total s).bestCheckpoint = s.bestCheckpoint ∧
      (epochStep patience e acc total s).bestOpcodeAcc = s.bestOpcodeAcc) ∧
    (s.bestOpcodeAcc < acc →
      (epochStep patience e acc total s).bestCheckpoint = some e ∧
      (epochStep patience e acc total s).bestOpcodeAcc = acc) := by
  constructor
  · intro hle
    simp [epochStep, hrun, not_lt.mpr hle]
  · intro hlt
    simp [epochStep, hrun, hlt]

/-- Closed instantiation of `C9_best_checkpoint_strict_improvement`: an
epoch whose accuracy exactly ties the current best (1/2) does not replace
the checkpoint saved at epoch 0. -/
theorem C9_witness :
    (epochStep 5 3 (1 / 2) (9 / 10) ⟨1 / 2, none, 0, some 0, false⟩).bestCheckpoint =
      some 0 ∧
    (epochStep 5 3 (1 / 2) (9 / 10) ⟨1 / 2, none, 0, some 0, false⟩).bestOpcodeAcc =
      1 / 2 :=
  (C9_best_checkpoint_strict_improvement 5 3 (1 / 2) (9 / 10)
    ⟨1 / 2, none, 0, some 0, false⟩ rfl).1 le_rfl

/-- One parsed JSONL data record as seen by `ParallelDataset.__init__`:
an optional `context` field, an optional legacy `prompt` field, and an
optional `instructions` list (`item.get('instructions', [])`). -/
structure RawItem where
  context : Option String
  prompt : Option String
  instructions : Option (List InstrRecord)
deriving DecidableEq, Repr

/-- `text = item.get('context') or item.get('prompt', '')`: Python `or`
returns the second operand when the first is `None` or the empty
string. -/
def itemText (it : RawItem) : String :=
  match it.context with
  | some t => if t = "" then it.prompt.getD "" else t
  | none => it.prompt.getD ""

/-- The retention filter of `ParallelDataset.__init__` (lines 51-74):
`if not text or not instructions: continue` — a record is kept exactly
when its resolved text is non-empty and its instruction list is
non-empty; kept records contribute `(text, instructions)`. -/
def loadSamples (items : List RawItem) : List (String × List InstrRecord) :=
  items.filterMap (fun it =>
    if itemText it = "" ∨ it.instructions.getD [] = [] then none
    else some (itemText it, it.instructions.getD []))

/-- A record with non-empty prompt and a single instruction record that
carries no `valid` field (so `instr.get('valid', 0)` yields 0). -/
def allPaddingItem : RawItem := ⟨some "x", none, some [emptyRecord]⟩

/-- C10 counterexample: the final consequence of the claim fails — an
all-padding sample CAN be produced from loaded data. `allPaddingItem`
passes the retention filter (non-empty text, non-empty instruction
list), yet its target `valid` mask is all zero, because the loader
defaults a missing `valid` field to 0. -/
theorem C10_counterexample_all_padding_from_loaded_data :
    loadSamples [allPaddingItem] = [("x", [emptyRecord])] ∧
    (getTargets [emptyRecord]).valid = List.replicate NUM_SLOTS 0 := by
  refine ⟨by decide, by decide⟩

/-- C10 (amended): every sample retained by the loader has a non-empty
prompt text and a non-empty instruction list — records with empty or
absent text or instructions are skipped entirely, not padded — but this
does not prevent all-padding samples: a retained record whose
instruction records all have `valid = 0` (or no `valid` key) still
produces an all-padding target. -/
theorem C10_amended_retained_samples_nonempty (items : List RawItem)
    (text : String) (instrs : List InstrRecord)
    (h : (text, instrs) ∈ loadSamples items) :
    text ≠ "" ∧ instrs ≠ [] := by
  unfold loadSamples at h
  obtain ⟨it, _, hit⟩ := List.mem_filterMap.mp h
  by_cases hc : itemText it = "" ∨ it.instructions.getD [] = []
  · rw [if_pos hc] at hit
    cases hit
  · rw [if_neg hc] at hit
    simp only [Option.some.injEq, Prod.mk.injEq] at hit
    obtain ⟨ha, hb⟩ := hit
    push_neg at hc
    rw [← ha, ← hb]
    exact hc

/-- Closed instantiation of `C10_amended_retained_samples_nonempty` on
the one-record dataset `[allPaddingItem]`. -/
theorem C10_witness :
    ("x", [emptyRecord]) ∈ loadSamples [allPaddingItem] ∧
    ("x" ≠ "" ∧ [emptyRecord] ≠ ([] : List InstrRecord)) :=
  ⟨by decide,
   C10_amended_retained_samples_nonempty [allPaddingItem] "x" [emptyRecord] (by decide)⟩

/-- Closed instantiation of `C1_imm_encode_decode_never_inverse` at
`v = -1`: the round trip sends `-1` to bin 255 and decodes it as 127. -/
theorem C1_witness :
    decodeImm (encodeImm (-1)) = 127 ∧ decodeImm (encodeImm (-1)) ≠ -1 :=
  ⟨by decide, C1_imm_encode_decode_never_inverse (-1)⟩
